import Mathlib

/-!
# Verification of the VisualTools slideshow pipeline

A shallow embedding of the slideshow filter-graph compiler and pipeline
orchestrator of the VisualTools web application, together with proofs of
the behavioural properties stated in its specification.

Conventions of the embedding:
* JavaScript numbers are modelled as rationals (`ℚ`); `Math.floor`,
  `Math.ceil`, `Math.round` and `Number.toFixed(2)` are modelled exactly
  on `ℚ`.
* JavaScript strings are Lean `String`s; where character-level reasoning
  is needed (filename extension splitting) the embedding works on the
  string's character list.
* The asynchronous pipeline run is modelled as a pure function from an
  environment (which fixes the outcome of every external interaction:
  image analysis, engine load, engine execution) to the ordered list of
  observable events (state updates and engine calls) plus a result.
-/

namespace VisualTools

/-! ## JavaScript numeric primitives -/

/-- `Math.floor` on the rational model of JS numbers. -/
def jsFloor (q : ℚ) : ℤ := ⌊q⌋

/-- `Math.ceil` on the rational model of JS numbers. -/
def jsCeil (q : ℚ) : ℤ := ⌈q⌉

/-- `Math.round`: rounds half up, i.e. `⌊q + 1/2⌋`. -/
def jsRound (q : ℚ) : ℤ := ⌊q + 1/2⌋

/-- Two-digit rendering of a natural number below 100, as used in the
fractional part of `toFixed(2)`. -/
def pad2 (n : ℕ) : String := if n < 10 then "0" ++ toString n else toString n

/-- `Number.prototype.toFixed(2)`: the number rounded to the nearest
hundredth (ties away from zero, i.e. up for the nonnegative values that
occur here), printed with exactly two digits after the decimal point. -/
def toFixed2 (q : ℚ) : String :=
  let n : ℤ := jsRound (q * 100)
  toString (n / 100) ++ "." ++ pad2 (n % 100).toNat

/-! ## Configuration constants (`src/config.ts`) -/

namespace CONFIG

def MAX_FILE_SIZE : ℕ := 50 * 1024 * 1024
def MAX_FILES_SLIDESHOW : ℕ := 20
def ACCEPTED_FORMATS : List String := [".png", ".jpg", ".jpeg"]
def ACCEPTED_MIME_TYPES : List String := ["image/png", "image/jpeg"]
def DISPLAY_DURATION : ℚ := 1.5
def TRANSITION_DURATION : ℚ := 0.5
def VIDEO_FPS : ℚ := 30
def DISPLAY_DURATION_MIN : ℚ := 0.5
def DISPLAY_DURATION_MAX : ℚ := 10
def TRANSITION_DURATION_MIN : ℚ := 0.1
def TRANSITION_DURATION_MAX : ℚ := 3

end CONFIG

namespace MESSAGES

def LOADING_FFMPEG : String := "Loading FFmpeg (one-time, ~10MB)..."
def ANALYZING_IMAGES : String := "Analyzing images..."
def GENERATING_VIDEO : String := "Generating video..."
def PROCESSING_COMPLETE : String := "Processing complete!"
def ERROR_FILE_TOO_LARGE : String := "File size exceeds 50MB limit"
def ERROR_INVALID_FORMAT : String := "Only PNG and JPG images are supported"
def ERROR_MAX_FILES : String := "Maximum 20 images allowed"
def ERROR_MIN_FILES_SLIDESHOW : String := "Please upload at least 2 images"
def ERROR_FFMPEG_LOAD : String := "Failed to load FFmpeg. Please try again."
def ERROR_PROCESSING : String := "An error occurred during processing"
def ERROR_NO_SHAREDARRAYBUFFER : String :=
  "Your browser does not support SharedArrayBuffer. Please use a modern browser with CORS isolation."

end MESSAGES

/-! ## The filter-graph compiler
(`src/modules/slideshow/slideshow-processor.ts`) -/

namespace SlideshowProcessor

/-- `calculateDuration(index, total)`: edge slides get `D + T/2`, interior
slides `D + T`. `total` is at least 2 whenever this is called, so the
truncated `total - 1` agrees with the source's `total - 1`. -/
def calculateDuration (D T : ℚ) (index total : ℕ) : ℚ :=
  if index = 0 ∨ index = total - 1 then D + T / 2 else D + T

/-- One per-image transform statement of the compiled graph: the chained
`scale,pad,setsar,fps,format,loop,trim,setpts` stages emitted for input
`i`, with its computed timing parameters and output label `v{i}`. -/
structure TransformNode where
  inputIdx : ℕ
  width : ℕ
  height : ℕ
  fps : ℚ
  duration : ℚ
  frameCount : ℤ
  loopCount : ℤ
  outLabel : String
  deriving DecidableEq, Inhabited

/-- The transform statement for input `i` of `total`, mirroring the first
loop of `buildFilterComplex`. -/
def transformNode (D T fps : ℚ) (total width height : ℕ) (i : ℕ) : TransformNode :=
  let duration := calculateDuration D T i total
  let frameCount := jsCeil (duration * fps)
  { inputIdx := i
    width := width
    height := height
    fps := fps
    duration := duration
    frameCount := frameCount
    loopCount := max 0 (frameCount - 1)
    outLabel := "v" ++ toString i }

/-- All per-image transform statements, in input order. -/
def transformNodes (D T fps : ℚ) (numImages width height : ℕ) : List TransformNode :=
  (List.range numImages).map (transformNode D T fps numImages width height)

/-- One crossfade (`xfade`) statement: inputs `inputA`/`inputB`, fade
duration, numeric offset, the `toFixed(2)` serialization of the offset,
and the output label. -/
structure XfadeNode where
  inputA : String
  inputB : String
  duration : ℚ
  offset : ℚ
  offsetStr : String
  outLabel : String
  deriving DecidableEq, Inhabited

/-- The crossfade statement for chain position `i` (source: body of the
second loop of `buildFilterComplex`, at accumulated offset `offset`). -/
def mkXfade (T : ℚ) (numImages i : ℕ) (offset : ℚ) : XfadeNode :=
  { inputA := if i = 0 then "v" ++ toString i else "vout" ++ toString i
    inputB := "v" ++ toString (i + 1)
    duration := T
    offset := offset
    offsetStr := toFixed2 offset
    outLabel := if i = numImages - 2 then "vfinal" else "vout" ++ toString (i + 1) }

/-- The second loop of `buildFilterComplex`: `fuel` iterations remain,
the loop counter is `i` and the accumulated offset is `offset`
(initially `D`; `offset += D` after every iteration). -/
def xfadeAux (D T : ℚ) (numImages : ℕ) : ℕ → ℚ → ℕ → List XfadeNode
  | _, _, 0 => []
  | i, offset, fuel + 1 =>
      mkXfade T numImages i offset :: xfadeAux D T numImages (i + 1) (offset + D) fuel

/-- The crossfade chain: `numImages - 1` statements, offsets accumulating
from `D` in steps of `D`. -/
def xfades (D T : ℚ) (numImages : ℕ) : List XfadeNode :=
  xfadeAux D T numImages 0 D (numImages - 1)

/-- Serialization of one transform statement (the string pushed by the
first loop of `buildFilterComplex`). `ratStr` renders the numeric
parameters. -/
def serializeTransform (ratStr : ℚ → String) (t : TransformNode) : String :=
  "[" ++ toString t.inputIdx ++ ":v]scale=" ++ toString t.width ++ ":" ++ toString t.height ++
    ":force_original_aspect_ratio=decrease," ++
    "pad=" ++ toString t.width ++ ":" ++ toString t.height ++ ":(ow-iw)/2:(oh-ih)/2:black," ++
    "setsar=1,fps=" ++ ratStr t.fps ++ ",format=yuva420p," ++
    "loop=loop=" ++ toString t.loopCount ++ ":size=1:start=0," ++
    "trim=duration=" ++ ratStr t.duration ++ ",setpts=PTS-STARTPTS[" ++ t.outLabel ++ "]"

/-- Serialization of one crossfade statement: the offset is written with
`toFixed(2)`, the transition duration with plain number rendering. -/
def serializeXfade (ratStr : ℚ → String) (x : XfadeNode) : String :=
  "[" ++ x.inputA ++ "][" ++ x.inputB ++ "]xfade=transition=fade:duration=" ++
    ratStr x.duration ++ ":offset=" ++ x.offsetStr ++ "[" ++ x.outLabel ++ "]"

/-- Model of JavaScript number printing for the nonnegative terminating
decimals that occur in the graph text: an integer prints without a
decimal point, otherwise the shortest decimal expansion is printed. -/
def ratStr (q : ℚ) : String :=
  if q.den = 1 then toString q.num
  else
    match (List.range 20).find? (fun k => (q * 10 ^ (k + 1)).den = 1) with
    | some k =>
        let m : ℕ := 10 ^ (k + 1)
        let n : ℤ := (q * m).num
        let fr := toString (n.natAbs % m)
        (if n < 0 then "-" else "") ++ toString (n.natAbs / m) ++ "." ++
          String.mk (List.replicate (k + 1 - fr.length) '0') ++ fr
    | none => toString q.num ++ "/" ++ toString q.den

/-- The compiled filter graph: the transform statements, the crossfade
statements, and the joined `filter_complex` text returned to `process`. -/
structure FilterGraph where
  transforms : List TransformNode
  xfades : List XfadeNode
  statements : List String
  filterComplex : String
  deriving Inhabited

/-- `buildFilterComplex(numImages, width, height)`: per-image transform
statements followed by the crossfade chain, joined with `;`. -/
def buildFilterComplex (D T fps : ℚ) (numImages width height : ℕ) : FilterGraph :=
  let ts := transformNodes D T fps numImages width height
  let xs := xfades D T numImages
  let stmts := ts.map (serializeTransform ratStr) ++ xs.map (serializeXfade ratStr)
  { transforms := ts
    xfades := xs
    statements := stmts
    filterComplex := String.intercalate ";" stmts }

/-! ### Staged input names (`getExtension` and the staging loop of `process`) -/

/-- JavaScript `String.prototype.split('.')` on the character list of a
string: always at least one (possibly empty) segment. -/
def jsSplitDot : List Char → List (List Char)
  | [] => [[]]
  | c :: cs =>
    match jsSplitDot cs with
    | [] => [[]]
    | seg :: rest => if c = '.' then [] :: seg :: rest else (c :: seg) :: rest

/-- `getExtension(file)`: `file.name.split('.').pop()?.toLowerCase() ?? 'jpg'`.
`split` never yields an empty array, so `pop()` is never `undefined` and the
`?? 'jpg'` arm is dead code; the result is the lowercased last
dot-separated segment — for a dot-free name, the whole lowercased name. -/
def getExtension (name : List Char) : List Char :=
  match (jsSplitDot name).getLast? with
  | some seg => seg.map Char.toLower
  | none => ['j', 'p', 'g']

/-- The staged filename for input index `i`: `input${i}.${getExtension(file)}`. -/
def stagedChars (i : ℕ) (name : List Char) : List Char :=
  "input".data ++ (Nat.repr i).data ++ '.' :: getExtension name

/-- `stagedChars` as a string. -/
def stagedName (i : ℕ) (name : String) : String := String.mk (stagedChars i name.data)

/-- The argv passed to `ffmpegManager.execute` (lines 77–87 of `process`):
`-i` per staged input, the graph text, the sink mapping, codec flags,
`-y` and the output name. -/
def engineArgs (inputFiles : List String) (filterComplex outputFile : String) : List String :=
  inputFiles.flatMap (fun f => ["-i", f]) ++
    ["-filter_complex", filterComplex,
     "-map", "[vfinal]",
     "-c:v", "libx264",
     "-pix_fmt", "yuv420p",
     "-preset", "fast",
     "-movflags", "+faststart",
     "-y",
     outputFile]

end SlideshowProcessor

/-! ## The engine manager (`src/core/ffmpeg-manager.ts`) -/

namespace FFmpegManager

/-- `deleteFile` on the engine's working storage (a set of filenames):
when the engine is not loaded it returns at once; otherwise it deletes the
file, swallowing the error when the file is absent. It never fails. -/
def deleteFile (loaded : Bool) (fs : List String) (name : String) : List String :=
  if loaded then fs.filter (fun f => f ≠ name) else fs

/-- `cleanup(filenames)`: deletes each name in order; a name absent from
storage does not stop the iteration. -/
def cleanup (loaded : Bool) (fs : List String) (names : List String) : List String :=
  names.foldl (deleteFile loaded) fs

/-! ### Single-flight initialization
(`initialize` of `ffmpeg-manager.ts` with the notify-on-change semantics of
`state-manager`'s `setState`). -/

/-- The process-wide state read and written by `initialize`: the manager's
own `loaded` flag and the state-manager keys `ffmpegLoading` /
`ffmpegLoaded`. -/
structure SharedState where
  loaded : Bool
  ffmpegLoading : Bool
  ffmpegLoaded : Bool
  deriving DecidableEq

/-- What the entry of `initialize` decides before any awaiting happens. -/
inductive InitEntry where
  /-- `this.loaded` is true: return `true` at once. -/
  | returnTrue
  /-- `ffmpegLoading` is set: subscribe to the `ffmpegLoaded` key and await it. -/
  | awaitLoaded
  /-- `SharedArrayBuffer` missing: set the error and return `false`. -/
  | returnFalseNoSAB
  /-- Start a real engine load (after setting `ffmpegLoading`). -/
  | startLoad
  deriving DecidableEq

/-- The synchronous prefix of `initialize`: the decision taken and the
shared state after it (`startLoad` sets `ffmpegLoading` to true). -/
def initializeEntry (s : SharedState) (sabSupported : Bool) : InitEntry × SharedState :=
  if s.loaded then (.returnTrue, s)
  else if s.ffmpegLoading then (.awaitLoaded, s)
  else if ¬ sabSupported then (.returnFalseNoSAB, s)
  else (.startLoad, { s with ffmpegLoading := true })

/-- Completion of an in-flight load. On success `initialize` sets
`this.loaded` and `setState({ffmpegLoaded: true, ffmpegLoading: false, progress: 100})`;
on failure it performs `setState({ffmpegLoading: false, error: …})`.
Returned with the new state is the list of state keys whose value changed —
`setState` notifies a key's subscribers only when its value changed. -/
def loadCompletion (success : Bool) (s : SharedState) : SharedState × List String :=
  if success then
    ({ s with loaded := true, ffmpegLoaded := true, ffmpegLoading := false },
      (if s.ffmpegLoaded = true then [] else ["ffmpegLoaded"]) ++
        (if s.ffmpegLoading = false then [] else ["ffmpegLoading"]) ++ ["progress"])
  else
    ({ s with ffmpegLoading := false },
      (if s.ffmpegLoading = false then [] else ["ffmpegLoading"]) ++ ["error"])

/-- What an `awaitLoaded` caller observes once the in-flight load
completes: its promise resolves (with the key's new value) only if the
completing `setState` changed the `ffmpegLoaded` key; otherwise the
promise never resolves. -/
def waiterOutcome (success : Bool) (s : SharedState) : Option Bool :=
  let (s', changed) := loadCompletion success s
  if "ffmpegLoaded" ∈ changed then some s'.ffmpegLoaded else none

/-- Two pipeline runs request engine acquisition concurrently, starting
from the fresh shared state: caller one enters first and starts the load,
caller two enters while the load is in flight, then the load completes
with `success`. Result: (decision of caller one, decision of caller two,
value returned to caller one, value observed by caller two — `none` when
its promise never resolves). -/
def twoCallerInit (success : Bool) : InitEntry × InitEntry × Bool × Option Bool :=
  let s0 : SharedState := ⟨false, false, false⟩
  let (d1, s1) := initializeEntry s0 true
  let (d2, s2) := initializeEntry s1 true
  (d1, d2, success, waiterOutcome success s2)

end FFmpegManager

/-! ## The pipeline run as an event trace
(`SlideshowProcessor.process` of `slideshow-processor.ts`) -/

/-- An observable step of a pipeline run: a state update
(`stateManager.setState`) or a call on the engine manager. -/
inductive Ev where
  | setProcessing (b : Bool)
  | setMessage (m : String)
  | setProgress (p : ℤ)
  | setError (m : String)
  | writeInput (name : String)
  | execute (args : List String)
  | readOutput (name : String)
  | deleteFile (name : String)
  deriving DecidableEq

/-- The outcome of a run: normal return, a thrown error (its message), or
an await that never resolves. -/
inductive RunResult where
  | ok
  | error (msg : String)
  | hang
  deriving DecidableEq

/-- Everything external that fixes one run's behaviour: the input
filenames, the engine state at entry, the outcome of each asynchronous
interaction, and the progress fractions the engine reports while loading
and while executing. -/
structure RunEnv where
  files : List String
  engineLoaded : Bool
  ffmpegLoading : Bool
  inflightSuccess : Bool
  sabSupported : Bool
  loadOk : Bool
  loadCallbacks : List ℚ
  analyzeOk : Bool
  maxWidth : ℕ
  maxHeight : ℕ
  execOk : Bool
  execCallbacks : List ℚ
  readOk : Bool

/-- `ffmpegManager.initialize()` as seen by one run: the state updates it
performs and its result (`none` when the caller awaits a resolution that
never comes — an in-flight load that fails never changes the
`ffmpegLoaded` key, see `FFmpegManager.waiterOutcome`). -/
def initializeRun (env : RunEnv) : List Ev × Option Bool :=
  if env.engineLoaded then ([], some true)
  else if env.ffmpegLoading then
    ([], FFmpegManager.waiterOutcome env.inflightSuccess ⟨false, true, false⟩)
  else if ¬ env.sabSupported then
    ([.setError MESSAGES.ERROR_NO_SHAREDARRAYBUFFER], some false)
  else
    let entry : List Ev := [.setMessage MESSAGES.LOADING_FFMPEG, .setProgress 0]
    let cbs : List Ev := env.loadCallbacks.map (fun p => .setProgress (jsRound (p * 100)))
    if env.loadOk then (entry ++ cbs ++ [.setProgress 100], some true)
    else (entry ++ cbs ++ [.setError MESSAGES.ERROR_FFMPEG_LOAD], some false)

/-- The output canvas width/height: the maximum input dimension rounded up
to the nearest even integer (`maxWidth + (maxWidth % 2)`). -/
def evenDim (d : ℕ) : ℕ := d + d % 2

/-- The staged input filenames of a run, in input order. -/
def stagedNames (files : List String) : List String :=
  (List.range files.length).map (fun i => SlideshowProcessor.stagedName i (files.getD i ""))

/-- The staging progress update for input `i` of `n`:
`20 + Math.floor((i / files.length) * 20)`. -/
def stagingProgress (i n : ℕ) : ℤ := 20 + jsFloor ((i : ℚ) / (n : ℚ) * 20)

/-- `SlideshowProcessor.process(files)` as an event trace. The structure
mirrors the source: the input-count guard throws before any state update;
`processing: true` and the analyze/load milestones precede engine
acquisition; acquisition failure throws before the `try` block, so neither
staging nor the `finally` reset runs; inside the `try`, any failure is
caught, rethrown as the generic processing error, and followed by the
`finally` reset; cleanup of the staged files and the output artifact
happens only on the success path, before the 100% milestone. -/
def processRun (D T fps : ℚ) (env : RunEnv) : List Ev × RunResult :=
  if env.files.length < 2 then ([], .error "At least 2 images required")
  else
    let evs1 : List Ev :=
      [.setProcessing true, .setMessage MESSAGES.ANALYZING_IMAGES, .setProgress 5]
    if ¬ env.analyzeOk then (evs1, .error "Failed to load image")
    else
      let evs2 := evs1 ++ [.setMessage MESSAGES.LOADING_FFMPEG, .setProgress 10]
      match initializeRun env with
      | (initEvs, none) => (evs2 ++ initEvs, .hang)
      | (initEvs, some ready) =>
        if ¬ ready then (evs2 ++ initEvs, .error MESSAGES.ERROR_FFMPEG_LOAD)
        else
          let evs3 := evs2 ++ initEvs ++
            [.setMessage MESSAGES.GENERATING_VIDEO, .setProgress 20]
          let n := env.files.length
          let width := evenDim env.maxWidth
          let height := evenDim env.maxHeight
          let inputFiles := stagedNames env.files
          let stagingEvs : List Ev := (List.range n).flatMap (fun i =>
            [.writeInput (SlideshowProcessor.stagedName i (env.files.getD i "")),
             .setProgress (stagingProgress i n)])
          let outputFile := "slideshow.mp4"
          let g := SlideshowProcessor.buildFilterComplex D T fps inputFiles.length width height
          let evs4 := evs3 ++ stagingEvs ++ [.setProgress 40] ++
            [.execute (SlideshowProcessor.engineArgs inputFiles g.filterComplex outputFile)] ++
            env.execCallbacks.map (fun p => .setProgress (jsRound (p * 100)))
          if ¬ env.execOk then (evs4 ++ [.setProcessing false], .error MESSAGES.ERROR_PROCESSING)
          else
            let evs5 := evs4 ++ [.setProgress 90, .readOutput outputFile]
            if ¬ env.readOk then (evs5 ++ [.setProcessing false], .error MESSAGES.ERROR_PROCESSING)
            else
              let evs6 := evs5 ++ (inputFiles ++ [outputFile]).map .deleteFile ++
                [.setProgress 100, .setMessage MESSAGES.PROCESSING_COMPLETE,
                 .setProcessing false]
              (evs6, .ok)

/-- The staged-input writes of a trace, in order. -/
def writes (evs : List Ev) : List String :=
  evs.filterMap (fun e => match e with | .writeInput n => some n | _ => none)

/-- The engine-storage deletions of a trace, in order. -/
def deletes (evs : List Ev) : List String :=
  evs.filterMap (fun e => match e with | .deleteFile n => some n | _ => none)

/-- The progress values a trace reports, in order. -/
def progressUpdates (evs : List Ev) : List ℤ :=
  evs.filterMap (fun e => match e with | .setProgress p => some p | _ => none)

/-- The last value the `processing` flag was set to in a trace (`none`
when it was never set). -/
def lastProcessing (evs : List Ev) : Option Bool :=
  (evs.filterMap (fun e => match e with | .setProcessing b => some b | _ => none)).getLast?

/-! ## The slideshow controller
(`generate` of `slideshow-controller.ts` and `validation.ts`) -/

namespace SlideshowController

/-- The caller-visible attributes of an uploaded `File`. -/
structure JsFile where
  name : String
  type : String
  size : ℕ

/-- `validateFile`: extension (from the same `split('.').pop()` idiom)
against the accepted formats, MIME type, then size. -/
def validateFile (f : JsFile) : Option String :=
  let ext := String.mk
    ('.' :: ((SlideshowProcessor.jsSplitDot f.name.data).getLast?.getD []).map Char.toLower)
  if ¬ CONFIG.ACCEPTED_FORMATS.contains ext then some MESSAGES.ERROR_INVALID_FORMAT
  else if ¬ CONFIG.ACCEPTED_MIME_TYPES.contains f.type then some MESSAGES.ERROR_INVALID_FORMAT
  else if f.size > CONFIG.MAX_FILE_SIZE then some MESSAGES.ERROR_FILE_TOO_LARGE
  else none

/-- `validateSlideshowFiles`: at least 2 files, at most the configured
maximum, and every file individually valid (first failure wins). -/
def validateSlideshowFiles (files : List JsFile) : Option String :=
  if files.length < 2 then some MESSAGES.ERROR_MIN_FILES_SLIDESHOW
  else if files.length > CONFIG.MAX_FILES_SLIDESHOW then some MESSAGES.ERROR_MAX_FILES
  else files.findSome? validateFile

/-- `parseFloat(input.value) || CONFIG.…`: an unparseable input (`none`,
for `NaN`) and a parse result of `0` (falsy) both fall back to the
configured default. -/
def parseOr (v : Option ℚ) (dflt : ℚ) : ℚ :=
  match v with
  | none => dflt
  | some x => if x = 0 then dflt else x

/-- How a `generate()` call ends. -/
inductive GenerateOutcome where
  /-- `validateSlideshowFiles` failed: the error is shown, nothing runs. -/
  | validationError (msg : String)
  /-- A duration bound failed: the error is shown, nothing runs. -/
  | durationError (msg : String)
  /-- `processor.process` is invoked with these effective durations. -/
  | processed (D T : ℚ)
  deriving DecidableEq

def displayBoundsError : String := "Display time must be between 0.5 and 10 seconds"

def transitionBoundsError : String := "Fade time must be between 0.1 and 3 seconds"

/-- `generate()` up to the decision whether `processor.process` runs:
file validation, then the duration bound checks, each returning before
the processor (and hence before any compilation or engine interaction). -/
def generate (files : List JsFile) (displayInput transitionInput : Option ℚ) :
    GenerateOutcome :=
  match validateSlideshowFiles files with
  | some err => .validationError err
  | none =>
    let D := parseOr displayInput CONFIG.DISPLAY_DURATION
    let T := parseOr transitionInput CONFIG.TRANSITION_DURATION
    if D < CONFIG.DISPLAY_DURATION_MIN ∨ D > CONFIG.DISPLAY_DURATION_MAX then
      .durationError displayBoundsError
    else if T < CONFIG.TRANSITION_DURATION_MIN ∨ T > CONFIG.TRANSITION_DURATION_MAX then
      .durationError transitionBoundsError
    else .processed D T

/-- The events of a whole `generate()` call: only the `processed` outcome
reaches the processor (and through it the engine). -/
def generateEvents (files : List JsFile) (displayInput transitionInput : Option ℚ)
    (fps : ℚ) (env : RunEnv) : List Ev :=
  match generate files displayInput transitionInput with
  | .processed D T => (processRun D T fps env).1
  | _ => []

end SlideshowController

/-! ## The progress-bar display
(`updateProgress` / `hide` of `components/progress-bar.ts`) -/

namespace ProgressBar

/-- The clamp applied to every incoming progress value. -/
def clamp (p : ℚ) : ℚ := min 100 (max 0 p)

/-- `updateProgress`: the displayed value after an update arrives while
`current` is displayed — the clamped value, unless it is strictly below
the current one, in which case the update is ignored. -/
def updateProgress (current p : ℚ) : ℚ :=
  let clamped := clamp p
  if clamped < current then current else clamped

/-- The successive displayed values when the updates `ps` arrive while the
bar shows `c0`. -/
def displayedValues (c0 : ℚ) (ps : List ℚ) : List ℚ :=
  List.scanl updateProgress c0 ps

/-- `hide()` resets the displayed value to 0 (`currentProgress = 0`
followed by `updateProgress(0)`). -/
def hideValue : ℚ := updateProgress 0 0

end ProgressBar

/-! ## Lemmas about the compiled graph -/

namespace SlideshowProcessor

theorem transformNodes_length (D T fps : ℚ) (n w h : ℕ) :
    (transformNodes D T fps n w h).length = n := by
  simp [transformNodes]

theorem transformNodes_getD (D T fps : ℚ) (n w h i : ℕ) (d : TransformNode)
    (hi : i < n) :
    (transformNodes D T fps n w h).getD i d = transformNode D T fps n w h i := by
  rw [transformNodes, List.getD_eq_getElem?_getD]
  simp [List.getElem?_map, List.getElem?_range, hi]

theorem xfadeAux_length (D T : ℚ) (n : ℕ) :
    ∀ (fuel i : ℕ) (offset : ℚ), (xfadeAux D T n i offset fuel).length = fuel := by
  intro fuel
  induction fuel with
  | zero => intro i offset; rfl
  | succ fuel ih => intro i offset; simp [xfadeAux, ih]

theorem xfadeAux_getD (D T : ℚ) (n : ℕ) (d : XfadeNode) :
    ∀ (fuel k i : ℕ) (offset : ℚ), k < fuel →
      (xfadeAux D T n i offset fuel).getD k d = mkXfade T n (i + k) (offset + k * D) := by
  intro fuel
  induction fuel with
  | zero => intro k i offset hk; omega
  | succ fuel ih =>
    intro k i offset hk
    match k with
    | 0 => simp [xfadeAux]
    | k + 1 =>
      rw [xfadeAux, List.getD_cons_succ, ih k (i + 1) (offset + D) (by omega)]
      congr 1
      · omega
      · push_cast
        ring

theorem xfades_length (D T : ℚ) (n : ℕ) : (xfades D T n).length = n - 1 :=
  xfadeAux_length D T n (n - 1) 0 D

theorem xfades_getD (D T : ℚ) (n k : ℕ) (d : XfadeNode) (hk : k < n - 1) :
    (xfades D T n).getD k d = mkXfade T n k (D + k * D) := by
  rw [xfades, xfadeAux_getD D T n d (n - 1) k 0 D hk]
  simp

theorem pad2_length : ∀ m : ℕ, m < 100 → (pad2 m).length = 2 := by decide

/-- `toFixed2` always produces an integer part, a point, and exactly two
fractional digits. -/
theorem toFixed2_shape (q : ℚ) :
    ∃ s : String, s.length = 2 ∧
      toFixed2 q = toString (jsRound (q * 100) / 100) ++ "." ++ s := by
  refine ⟨pad2 (jsRound (q * 100) % 100).toNat, ?_, rfl⟩
  refine pad2_length _ ?_
  have h : jsRound (q * 100) % 100 < 100 := Int.emod_lt_of_pos _ (by norm_num)
  omega

/-- Output labels `v0 … v(N-1)` are pairwise distinct for every input
count up to the configured maximum. -/
theorem vLabels_nodup :
    ∀ N : ℕ, N ≤ 20 → ((List.range N).map (fun i => "v" ++ toString i)).Nodup := by
  decide

end SlideshowProcessor

open SlideshowProcessor in
/-- C1: in the compiled graph of `N ≥ 2` slides with display duration `D`
and transition duration `T`, slide 0 and slide `N-1` last `D + T/2` and
every interior slide lasts `D + T`. -/
theorem C1_per_slide_durations (D T fps : ℚ) (N W H : ℕ) (hN : 2 ≤ N) :
    ((buildFilterComplex D T fps N W H).transforms.getD 0 default).duration = D + T / 2
  ∧ ((buildFilterComplex D T fps N W H).transforms.getD (N - 1) default).duration = D + T / 2
  ∧ ∀ i, 0 < i → i < N - 1 →
      ((buildFilterComplex D T fps N W H).transforms.getD i default).duration = D + T := by
  have ht : (buildFilterComplex D T fps N W H).transforms = transformNodes D T fps N W H := rfl
  refine ⟨?_, ?_, ?_⟩
  · rw [ht, transformNodes_getD D T fps N W H 0 default (by omega)]
    simp [transformNode, calculateDuration]
  · rw [ht, transformNodes_getD D T fps N W H (N - 1) default (by omega)]
    simp [transformNode, calculateDuration]
  · intro i hi0 hiN
    rw [ht, transformNodes_getD D T fps N W H i default (by omega)]
    have h1 : ¬ (i = 0) := by omega
    have h2 : ¬ (i = N - 1) := by omega
    simp [transformNode, calculateDuration, h1, h2]

open SlideshowProcessor in
/-- Witness for C1 at `D = 1.5`, `T = 0.5`, `fps = 30`, `N = 3`. -/
theorem C1_per_slide_durations_witness :
    (2 ≤ 3)
  ∧ (((buildFilterComplex 1.5 0.5 30 3 300 200).transforms.getD 0 default).duration
        = 1.5 + 0.5 / 2
    ∧ ((buildFilterComplex 1.5 0.5 30 3 300 200).transforms.getD (3 - 1) default).duration
        = 1.5 + 0.5 / 2
    ∧ ∀ i, 0 < i → i < 3 - 1 →
        ((buildFilterComplex 1.5 0.5 30 3 300 200).transforms.getD i default).duration
          = 1.5 + 0.5) :=
  ⟨by decide, C1_per_slide_durations 1.5 0.5 30 3 300 200 (by decide)⟩

open SlideshowProcessor in
/-- C2: the compiled graph of `N ≥ 2` inputs has exactly `N` transform
statements with pairwise-distinct labels `v0 … v(N-1)` in input order and
exactly `N-1` crossfade statements; crossfade `k` consumes transform
stream `v(k+1)` together with the previous crossfade's output (`v0` for
`k = 0`); the final crossfade emits the sink label `vfinal`, which the
orchestrator maps in the engine argv. -/
theorem C2_graph_topology (D T fps : ℚ) (N W H : ℕ) (hN : 2 ≤ N)
    (hmax : N ≤ CONFIG.MAX_FILES_SLIDESHOW) :
    (buildFilterComplex D T fps N W H).transforms.length = N
  ∧ (buildFilterComplex D T fps N W H).transforms.map (fun t => t.outLabel)
      = (List.range N).map (fun i => "v" ++ toString i)
  ∧ ((buildFilterComplex D T fps N W H).transforms.map (fun t => t.outLabel)).Nodup
  ∧ (buildFilterComplex D T fps N W H).statements.length = N + (N - 1)
  ∧ (buildFilterComplex D T fps N W H).xfades.length = N - 1
  ∧ (∀ k, k < N - 1 →
      ((buildFilterComplex D T fps N W H).xfades.getD k default).inputB
        = ((buildFilterComplex D T fps N W H).transforms.getD (k + 1) default).outLabel)
  ∧ ((buildFilterComplex D T fps N W H).xfades.getD 0 default).inputA
      = ((buildFilterComplex D T fps N W H).transforms.getD 0 default).outLabel
  ∧ (∀ k, k + 1 < N - 1 →
      ((buildFilterComplex D T fps N W H).xfades.getD (k + 1) default).inputA
        = ((buildFilterComplex D T fps N W H).xfades.getD k default).outLabel)
  ∧ ((buildFilterComplex D T fps N W H).xfades.getD (N - 2) default).outLabel = "vfinal"
  ∧ ∀ inputFiles outputFile,
      List.IsInfix
        ["-map",
          "[" ++ ((buildFilterComplex D T fps N W H).xfades.getD (N - 2) default).outLabel ++ "]"]
        (engineArgs inputFiles (buildFilterComplex D T fps N W H).filterComplex outputFile) := by
  have ht : (buildFilterComplex D T fps N W H).transforms = transformNodes D T fps N W H := rfl
  have hx : (buildFilterComplex D T fps N W H).xfades = xfades D T N := rfl
  have hlabels : (buildFilterComplex D T fps N W H).transforms.map (fun t => t.outLabel)
      = (List.range N).map (fun i => "v" ++ toString i) := by
    rw [ht]
    simp [transformNodes, List.map_map, transformNode, Function.comp]
  have hfinal : ((buildFilterComplex D T fps N W H).xfades.getD (N - 2) default).outLabel
      = "vfinal" := by
    rw [hx, xfades_getD D T N (N - 2) default (by omega)]
    simp [mkXfade]
  refine ⟨?_, hlabels, ?_, ?_, ?_, ?_, ?_, ?_, hfinal, ?_⟩
  · rw [ht]; exact transformNodes_length D T fps N W H
  · rw [hlabels]
    exact vLabels_nodup N hmax
  · simp [buildFilterComplex, transformNodes, xfades_length, xfadeAux_length]
  · rw [hx]; exact xfades_length D T N
  · intro k hk
    rw [hx, xfades_getD D T N k default hk,
      ht, transformNodes_getD D T fps N W H (k + 1) default (by omega)]
    simp [mkXfade, transformNode]
  · rw [hx, xfades_getD D T N 0 default (by omega),
      ht, transformNodes_getD D T fps N W H 0 default (by omega)]
    simp [mkXfade, transformNode]
  · intro k hk
    rw [hx, xfades_getD D T N (k + 1) default (by omega),
      xfades_getD D T N k default (by omega)]
    have h2 : ¬ (k = N - 2) := by omega
    simp [mkXfade, h2]
  · intro inputFiles outputFile
    rw [hfinal]
    refine ⟨inputFiles.flatMap (fun f => ["-i", f]) ++
        ["-filter_complex", (buildFilterComplex D T fps N W H).filterComplex],
      ["-c:v", "libx264", "-pix_fmt", "yuv420p", "-preset", "fast",
        "-movflags", "+faststart", "-y", outputFile], ?_⟩
    simp [engineArgs]

open SlideshowProcessor in
/-- Witness for C2 at `D = 1.5`, `T = 0.5`, `fps = 30`, `N = 3`. -/
theorem C2_graph_topology_witness :
    (2 ≤ 3) ∧ (3 ≤ CONFIG.MAX_FILES_SLIDESHOW)
  ∧ ((buildFilterComplex 1.5 0.5 30 3 300 200).transforms.length = 3
    ∧ (buildFilterComplex 1.5 0.5 30 3 300 200).transforms.map (fun t => t.outLabel)
        = (List.range 3).map (fun i => "v" ++ toString i)
    ∧ ((buildFilterComplex 1.5 0.5 30 3 300 200).transforms.map (fun t => t.outLabel)).Nodup
    ∧ (buildFilterComplex 1.5 0.5 30 3 300 200).statements.length = 3 + (3 - 1)
    ∧ (buildFilterComplex 1.5 0.5 30 3 300 200).xfades.length = 3 - 1
    ∧ (∀ k, k < 3 - 1 →
        ((buildFilterComplex 1.5 0.5 30 3 300 200).xfades.getD k default).inputB
          = ((buildFilterComplex 1.5 0.5 30 3 300 200).transforms.getD (k + 1) default).outLabel)
    ∧ ((buildFilterComplex 1.5 0.5 30 3 300 200).xfades.getD 0 default).inputA
        = ((buildFilterComplex 1.5 0.5 30 3 300 200).transforms.getD 0 default).outLabel
    ∧ (∀ k, k + 1 < 3 - 1 →
        ((buildFilterComplex 1.5 0.5 30 3 300 200).xfades.getD (k + 1) default).inputA
          = ((buildFilterComplex 1.5 0.5 30 3 300 200).xfades.getD k default).outLabel)
    ∧ ((buildFilterComplex 1.5 0.5 30 3 300 200).xfades.getD (3 - 2) default).outLabel = "vfinal"
    ∧ ∀ inputFiles outputFile,
        List.IsInfix
          ["-map",
            "[" ++ ((buildFilterComplex 1.5 0.5 30 3 300 200).xfades.getD (3 - 2) default).outLabel
              ++ "]"]
          (engineArgs inputFiles (buildFilterComplex 1.5 0.5 30 3 300 200).filterComplex
            outputFile)) :=
  ⟨by decide, by decide, C2_graph_topology 1.5 0.5 30 3 300 200 (by decide) (by decide)⟩

open SlideshowProcessor in
/-- C3: crossfade offsets satisfy `offset 0 = D`,
`offset (k+1) = offset k + D`, hence `offset k = D·(k+1)`; they strictly
increase along the chain, and each is serialized by `toFixed(2)` — an
integer part, a decimal point and exactly two fractional digits. -/
theorem C3_crossfade_offsets (D T fps : ℚ) (N W H : ℕ) (hN : 2 ≤ N)
    (hD : CONFIG.DISPLAY_DURATION_MIN ≤ D) :
    ((buildFilterComplex D T fps N W H).xfades.getD 0 default).offset = D
  ∧ (∀ k, k + 1 < N - 1 →
      ((buildFilterComplex D T fps N W H).xfades.getD (k + 1) default).offset
        = ((buildFilterComplex D T fps N W H).xfades.getD k default).offset + D)
  ∧ (∀ k, k < N - 1 →
      ((buildFilterComplex D T fps N W H).xfades.getD k default).offset = D * (k + 1))
  ∧ (∀ j k, j < k → k < N - 1 →
      ((buildFilterComplex D T fps N W H).xfades.getD j default).offset
        < ((buildFilterComplex D T fps N W H).xfades.getD k default).offset)
  ∧ ∀ k, k < N - 1 →
      ((buildFilterComplex D T fps N W H).xfades.getD k default).offsetStr
        = toFixed2 (((buildFilterComplex D T fps N W H).xfades.getD k default).offset)
      ∧ ∃ s : String, s.length = 2 ∧
          ((buildFilterComplex D T fps N W H).xfades.getD k default).offsetStr
            = toString
                (jsRound (((buildFilterComplex D T fps N W H).xfades.getD k default).offset * 100)
                  / 100) ++ "." ++ s := by
  have hx : (buildFilterComplex D T fps N W H).xfades = xfades D T N := rfl
  have hDpos : 0 < D := by
    have : (0 : ℚ) < CONFIG.DISPLAY_DURATION_MIN := by norm_num [CONFIG.DISPLAY_DURATION_MIN]
    linarith
  have hoff : ∀ k, k < N - 1 →
      ((buildFilterComplex D T fps N W H).xfades.getD k default).offset = D * (k + 1) := by
    intro k hk
    rw [hx, xfades_getD D T N k default hk]
    simp [mkXfade]
    ring
  refine ⟨?_, ?_, hoff, ?_, ?_⟩
  · rw [hoff 0 (by omega)]; push_cast; ring
  · intro k hk
    rw [hoff (k + 1) hk, hoff k (by omega)]
    push_cast
    ring
  · intro j k hjk hk
    rw [hoff j (by omega), hoff k hk]
    have hc : ((j : ℚ) + 1) < ((k : ℚ) + 1) := by exact_mod_cast Nat.succ_lt_succ hjk
    exact mul_lt_mul_of_pos_left hc hDpos
  · intro k hk
    have hs : ((buildFilterComplex D T fps N W H).xfades.getD k default).offsetStr
        = toFixed2 (((buildFilterComplex D T fps N W H).xfades.getD k default).offset) := by
      rw [hx, xfades_getD D T N k default hk]
      rfl
    exact ⟨hs, by rw [hs]; exact toFixed2_shape _⟩

open SlideshowProcessor in
/-- Witness for C3 at `D = 1.5`, `T = 0.5`, `fps = 30`, `N = 3`. -/
theorem C3_crossfade_offsets_witness :
    (2 ≤ 3) ∧ (CONFIG.DISPLAY_DURATION_MIN ≤ (1.5 : ℚ))
  ∧ (((buildFilterComplex 1.5 0.5 30 3 300 200).xfades.getD 0 default).offset = 1.5
    ∧ (∀ k, k + 1 < 3 - 1 →
        ((buildFilterComplex 1.5 0.5 30 3 300 200).xfades.getD (k + 1) default).offset
          = ((buildFilterComplex 1.5 0.5 30 3 300 200).xfades.getD k default).offset + 1.5)
    ∧ (∀ k, k < 3 - 1 →
        ((buildFilterComplex 1.5 0.5 30 3 300 200).xfades.getD k default).offset = 1.5 * (k + 1))
    ∧ (∀ j k, j < k → k < 3 - 1 →
        ((buildFilterComplex 1.5 0.5 30 3 300 200).xfades.getD j default).offset
          < ((buildFilterComplex 1.5 0.5 30 3 300 200).xfades.getD k default).offset)
    ∧ ∀ k, k < 3 - 1 →
        ((buildFilterComplex 1.5 0.5 30 3 300 200).xfades.getD k default).offsetStr
          = toFixed2 (((buildFilterComplex 1.5 0.5 30 3 300 200).xfades.getD k default).offset)
        ∧ ∃ s : String, s.length = 2 ∧
            ((buildFilterComplex 1.5 0.5 30 3 300 200).xfades.getD k default).offsetStr
              = toString
                  (jsRound
                    (((buildFilterComplex 1.5 0.5 30 3 300 200).xfades.getD k default).offset
                      * 100) / 100) ++ "." ++ s) :=
  ⟨by decide, by with_unfolding_all exact of_decide_eq_true rfl,
    C3_crossfade_offsets 1.5 0.5 30 3 300 200 (by decide)
      (by with_unfolding_all exact of_decide_eq_true rfl)⟩

/-- C4: with the uploaded files passing validation, an effective display
duration outside `[0.5, 10]` or transition duration outside `[0.1, 3]`
makes `generate` end in a duration error: the processor is never invoked,
so the whole run produces no state update, no filter-graph emission and no
engine interaction. -/
theorem C4_duration_validation (files : List SlideshowController.JsFile)
    (displayInput transitionInput : Option ℚ) (fps : ℚ) (env : RunEnv)
    (hv : SlideshowController.validateSlideshowFiles files = none)
    (hd : SlideshowController.parseOr displayInput CONFIG.DISPLAY_DURATION
            < CONFIG.DISPLAY_DURATION_MIN
        ∨ SlideshowController.parseOr displayInput CONFIG.DISPLAY_DURATION
            > CONFIG.DISPLAY_DURATION_MAX
        ∨ SlideshowController.parseOr transitionInput CONFIG.TRANSITION_DURATION
            < CONFIG.TRANSITION_DURATION_MIN
        ∨ SlideshowController.parseOr transitionInput CONFIG.TRANSITION_DURATION
            > CONFIG.TRANSITION_DURATION_MAX) :
    (∃ msg, SlideshowController.generate files displayInput transitionInput
        = .durationError msg)
  ∧ SlideshowController.generateEvents files displayInput transitionInput fps env = [] := by
  have hgen : ∃ msg, SlideshowController.generate files displayInput transitionInput
      = .durationError msg := by
    unfold SlideshowController.generate
    rw [hv]
    by_cases h1 : SlideshowController.parseOr displayInput CONFIG.DISPLAY_DURATION
          < CONFIG.DISPLAY_DURATION_MIN
        ∨ SlideshowController.parseOr displayInput CONFIG.DISPLAY_DURATION
          > CONFIG.DISPLAY_DURATION_MAX
    · exact ⟨SlideshowController.displayBoundsError, by simp [h1]⟩
    · have h2 : SlideshowController.parseOr transitionInput CONFIG.TRANSITION_DURATION
            < CONFIG.TRANSITION_DURATION_MIN
          ∨ SlideshowController.parseOr transitionInput CONFIG.TRANSITION_DURATION
            > CONFIG.TRANSITION_DURATION_MAX := by tauto
      exact ⟨SlideshowController.transitionBoundsError, by simp [h1, h2]⟩
  obtain ⟨msg, hmsg⟩ := hgen
  refine ⟨⟨msg, hmsg⟩, ?_⟩
  unfold SlideshowController.generateEvents
  rw [hmsg]

/-- Witness for C4: two valid images, transition input `5` (spec
scenario C). -/
theorem C4_duration_validation_witness :
    SlideshowController.validateSlideshowFiles
        [⟨"a.jpg", "image/jpeg", 100⟩, ⟨"b.png", "image/png", 100⟩] = none
  ∧ (SlideshowController.parseOr (some 1.5) CONFIG.DISPLAY_DURATION
        < CONFIG.DISPLAY_DURATION_MIN
      ∨ SlideshowController.parseOr (some 1.5) CONFIG.DISPLAY_DURATION
        > CONFIG.DISPLAY_DURATION_MAX
      ∨ SlideshowController.parseOr (some 5) CONFIG.TRANSITION_DURATION
        < CONFIG.TRANSITION_DURATION_MIN
      ∨ SlideshowController.parseOr (some 5) CONFIG.TRANSITION_DURATION
        > CONFIG.TRANSITION_DURATION_MAX)
  ∧ ((∃ msg, SlideshowController.generate
        [⟨"a.jpg", "image/jpeg", 100⟩, ⟨"b.png", "image/png", 100⟩] (some 1.5) (some 5)
        = .durationError msg)
    ∧ SlideshowController.generateEvents
        [⟨"a.jpg", "image/jpeg", 100⟩, ⟨"b.png", "image/png", 100⟩] (some 1.5) (some 5)
        30
        { files := ["a.jpg", "b.png"], engineLoaded := false, ffmpegLoading := false,
          inflightSuccess := true, sabSupported := true, loadOk := true, loadCallbacks := [],
          analyzeOk := true, maxWidth := 300, maxHeight := 200,
          execOk := true, execCallbacks := [], readOk := true } = []) := by
  have hv : SlideshowController.validateSlideshowFiles
      [⟨"a.jpg", "image/jpeg", 100⟩, ⟨"b.png", "image/png", 100⟩] = none := by decide
  have hd : SlideshowController.parseOr (some 1.5) CONFIG.DISPLAY_DURATION
        < CONFIG.DISPLAY_DURATION_MIN
      ∨ SlideshowController.parseOr (some 1.5) CONFIG.DISPLAY_DURATION
        > CONFIG.DISPLAY_DURATION_MAX
      ∨ SlideshowController.parseOr (some 5) CONFIG.TRANSITION_DURATION
        < CONFIG.TRANSITION_DURATION_MIN
      ∨ SlideshowController.parseOr (some 5) CONFIG.TRANSITION_DURATION
        > CONFIG.TRANSITION_DURATION_MAX := by
    with_unfolding_all exact of_decide_eq_true rfl
  exact ⟨hv, hd, C4_duration_validation _ _ _ 30 _ hv hd⟩

/-- The failing environment for C5: two valid images, engine not yet
loaded, `SharedArrayBuffer` unavailable, so engine acquisition returns
`false`. -/
def engineUnavailableEnv : RunEnv :=
  { files := ["a.jpg", "b.png"], engineLoaded := false, ffmpegLoading := false,
    inflightSuccess := true, sabSupported := false, loadOk := true, loadCallbacks := [],
    analyzeOk := true, maxWidth := 300, maxHeight := 200,
    execOk := true, execCallbacks := [], readOk := true }

/-- C5 (code bug): when engine acquisition fails, the run does fail with
the engine-unavailable error before any staging — but the `processing`
flag is NOT reset: the throw at the top of `process` happens before the
`try`/`finally` that performs the reset, so the last value the flag was
set to in the trace is `true`. -/
theorem C5_engine_unavailable_flag_not_reset :
    (processRun 1.5 0.5 30 engineUnavailableEnv).2 = .error MESSAGES.ERROR_FFMPEG_LOAD
  ∧ writes (processRun 1.5 0.5 30 engineUnavailableEnv).1 = []
  ∧ deletes (processRun 1.5 0.5 30 engineUnavailableEnv).1 = []
  ∧ lastProcessing (processRun 1.5 0.5 30 engineUnavailableEnv).1 = some true := by
  decide

/-! ## Trace projection lemmas -/

theorem deletes_append (a b : List Ev) : deletes (a ++ b) = deletes a ++ deletes b := by
  simp [deletes]

theorem writes_append (a b : List Ev) : writes (a ++ b) = writes a ++ writes b := by
  simp [writes]

theorem progressUpdates_append (a b : List Ev) :
    progressUpdates (a ++ b) = progressUpdates a ++ progressUpdates b := by
  simp [progressUpdates]

theorem deletes_map_deleteFile (l : List String) : deletes (l.map Ev.deleteFile) = l := by
  induction l with
  | nil => rfl
  | cons a t ih => simp [deletes] at ih ⊢; exact ih

theorem writes_map_deleteFile (l : List String) : writes (l.map Ev.deleteFile) = [] := by
  induction l with
  | nil => rfl
  | cons a t ih => simp [writes] at ih ⊢

theorem progressUpdates_map_deleteFile (l : List String) :
    progressUpdates (l.map Ev.deleteFile) = [] := by
  induction l with
  | nil => rfl
  | cons a t ih => simp [progressUpdates] at ih ⊢

theorem deletes_map_setProgress (l : List ℚ) (f : ℚ → ℤ) :
    deletes (l.map (fun p => Ev.setProgress (f p))) = [] := by
  induction l with
  | nil => rfl
  | cons a t ih => simp [deletes] at ih ⊢

theorem writes_map_setProgress (l : List ℚ) (f : ℚ → ℤ) :
    writes (l.map (fun p => Ev.setProgress (f p))) = [] := by
  induction l with
  | nil => rfl
  | cons a t ih => simp [writes] at ih ⊢

theorem progressUpdates_map_setProgress (l : List ℚ) (f : ℚ → ℤ) :
    progressUpdates (l.map (fun p => Ev.setProgress (f p))) = l.map f := by
  induction l with
  | nil => rfl
  | cons a t ih => simp [progressUpdates] at ih ⊢; exact ih

theorem deletes_staging (l : List ℕ) (w : ℕ → String) (f : ℕ → ℤ) :
    deletes (l.flatMap (fun i => [Ev.writeInput (w i), Ev.setProgress (f i)])) = [] := by
  induction l with
  | nil => rfl
  | cons a t ih => simp [deletes] at ih ⊢; exact ih

theorem writes_staging (l : List ℕ) (w : ℕ → String) (f : ℕ → ℤ) :
    writes (l.flatMap (fun i => [Ev.writeInput (w i), Ev.setProgress (f i)])) = l.map w := by
  induction l with
  | nil => rfl
  | cons a t ih => simp [writes] at ih ⊢; exact ih

theorem progressUpdates_staging (l : List ℕ) (w : ℕ → String) (f : ℕ → ℤ) :
    progressUpdates (l.flatMap (fun i => [Ev.writeInput (w i), Ev.setProgress (f i)]))
      = l.map f := by
  induction l with
  | nil => rfl
  | cons a t ih => simp [progressUpdates] at ih ⊢; exact ih

theorem initializeRun_deletes (env : RunEnv) : deletes (initializeRun env).1 = [] := by
  unfold initializeRun
  split_ifs <;> simp [deletes_append, deletes_map_setProgress, deletes]

theorem initializeRun_writes (env : RunEnv) : writes (initializeRun env).1 = [] := by
  unfold initializeRun
  split_ifs <;> simp [writes_append, writes_map_setProgress, writes]

/-- `cleanup` on loaded storage removes exactly the listed names: a listed
name that is absent raises no error and the remaining names are still
removed. -/
theorem cleanup_eq_filter (fs names : List String) :
    FFmpegManager.cleanup true fs names = fs.filter (fun f => decide (f ∉ names)) := by
  induction names generalizing fs with
  | nil => simp [FFmpegManager.cleanup]
  | cons n ns ih =>
    have h1 : FFmpegManager.cleanup true fs (n :: ns)
        = FFmpegManager.cleanup true (fs.filter (fun f => decide (f ≠ n))) ns := by
      simp [FFmpegManager.cleanup, FFmpegManager.deleteFile]
    rw [h1, ih, List.filter_filter]
    apply List.filter_congr
    intro f _
    simp [List.mem_cons, not_or, Bool.and_comm]

/-- The success path of `process` stages every input and then deletes
every staged input plus the output artifact. -/
theorem processRun_success_files (D T fps : ℚ) (env : RunEnv)
    (h2 : 2 ≤ env.files.length) (ha : env.analyzeOk = true)
    (hi : (initializeRun env).2 = some true)
    (he : env.execOk = true) (hr : env.readOk = true) :
    writes (processRun D T fps env).1 = stagedNames env.files
  ∧ deletes (processRun D T fps env).1 = stagedNames env.files ++ ["slideshow.mp4"] := by
  have hlen : ¬ (env.files.length < 2) := by omega
  rcases hip : initializeRun env with ⟨initEvs, r⟩
  have hr2 : r = some true := by rw [hip] at hi; exact hi
  subst hr2
  have hdi : deletes initEvs = [] := by
    have h := initializeRun_deletes env; rw [hip] at h; exact h
  have hwi : writes initEvs = [] := by
    have h := initializeRun_writes env; rw [hip] at h; exact h
  unfold processRun
  rw [hip]
  simp only [hlen, ha, he, hr, if_false, not_true, Bool.not_true, ite_false, ite_true,
    not_false_iff, if_neg, if_true, Bool.not_false]
  constructor
  · simp only [writes_append, writes_staging, writes_map_setProgress,
      writes_map_deleteFile, hwi]
    simp [writes, stagedNames]
  · simp only [deletes_append, deletes_staging, deletes_map_setProgress,
      deletes_map_deleteFile, hdi]
    simp [deletes, stagedNames]

/-- On every non-success outcome of `process`, the trace contains no
deletion at all: cleanup runs only on the success path. -/
theorem processRun_failure_no_deletes (D T fps : ℚ) (env : RunEnv)
    (hne : (processRun D T fps env).2 ≠ .ok) :
    deletes (processRun D T fps env).1 = [] := by
  rcases hip : initializeRun env with ⟨initEvs, r⟩
  have hdi := initializeRun_deletes env
  rw [hip] at hdi
  simp only [deletes] at hdi
  simp only [List.filterMap_eq_nil_iff] at hdi
  unfold processRun at hne ⊢
  rw [hip] at hne ⊢
  by_cases hlen : env.files.length < 2
  · simp [hlen, deletes]
  · by_cases ha : env.analyzeOk
    · cases r with
      | none =>
        simp [hlen, ha, deletes]
        exact hdi
      | some ready =>
        cases ready with
        | false =>
          simp [hlen, ha, deletes]
          exact hdi
        | true =>
          by_cases hexec : env.execOk
          · by_cases hread : env.readOk
            · exfalso
              apply hne
              simp [hlen, ha, hexec, hread]
            · simp [hlen, ha, hexec, hread, deletes]
              refine ⟨hdi, ?_⟩
              rintro a x hx (rfl | rfl) <;> rfl
          · simp [hlen, ha, hexec, deletes]
            refine ⟨hdi, ?_⟩
            rintro a x hx (rfl | rfl) <;> rfl
    · simp [hlen, ha, deletes]

/-- C6 (amended): on the success path cleanup deletes every staged input
and the output artifact; deleting an absent name is not an error and does
not abort the deletion of the remaining names (`cleanup` totally removes
every listed name, present or not); but on every failure path no deletion
is performed at all. -/
theorem C6_cleanup_semantics :
    (∀ (D T fps : ℚ) (env : RunEnv),
        2 ≤ env.files.length → env.analyzeOk = true →
        (initializeRun env).2 = some true →
        env.execOk = true → env.readOk = true →
        writes (processRun D T fps env).1 = stagedNames env.files
        ∧ deletes (processRun D T fps env).1 = stagedNames env.files ++ ["slideshow.mp4"])
  ∧ (∀ (D T fps : ℚ) (env : RunEnv), (processRun D T fps env).2 ≠ .ok →
        deletes (processRun D T fps env).1 = [])
  ∧ (∀ fs names, FFmpegManager.cleanup true fs names
        = fs.filter (fun f => decide (f ∉ names)))
  ∧ (∀ fs names name, name ∈ names → name ∉ FFmpegManager.cleanup true fs names) := by
  refine ⟨fun D T fps env h2 ha hi he hr => processRun_success_files D T fps env h2 ha hi he hr,
    fun D T fps env hne => processRun_failure_no_deletes D T fps env hne,
    cleanup_eq_filter, ?_⟩
  intro fs names name hmem hin
  rw [cleanup_eq_filter] at hin
  have := List.of_mem_filter hin
  simp at this
  exact this hmem

/-- The failing environment for the C6 counterexample: engine already
loaded, two valid inputs, engine execution fails. -/
def execFailEnv : RunEnv :=
  { files := ["a.jpg", "b.png"], engineLoaded := true, ffmpegLoading := false,
    inflightSuccess := true, sabSupported := true, loadOk := true, loadCallbacks := [],
    analyzeOk := true, maxWidth := 300, maxHeight := 200,
    execOk := false, execCallbacks := [], readOk := true }

/-- C6 counterexample: a run whose engine execution fails stages both
inputs and then deletes nothing — the failure path performs no cleanup,
contradicting the claim that staged inputs and the artifact are deleted
on both the success and the failure path. -/
theorem C6_no_cleanup_on_failure :
    (processRun 1.5 0.5 30 execFailEnv).2 = .error MESSAGES.ERROR_PROCESSING
  ∧ writes (processRun 1.5 0.5 30 execFailEnv).1 = ["input0.jpg", "input1.png"]
  ∧ deletes (processRun 1.5 0.5 30 execFailEnv).1 = [] := by
  decide

/-! ## Lemmas about filename splitting and staged names -/

namespace SlideshowProcessor

theorem getLast?_cons_of_ne {α : Type} (a : α) (l : List α) (h : l ≠ []) :
    (a :: l).getLast? = l.getLast? := by
  cases l with
  | nil => exact absurd rfl h
  | cons b t => exact List.getLast?_cons_cons

theorem jsSplitDot_ne_nil (cs : List Char) : jsSplitDot cs ≠ [] := by
  cases cs with
  | nil => simp [jsSplitDot]
  | cons c cs =>
    cases h : jsSplitDot cs with
    | nil => simp [jsSplitDot, h]
    | cons seg rest => by_cases hc : c = '.' <;> simp [jsSplitDot, h, hc]

theorem jsSplitDot_no_dot (cs : List Char) (h : '.' ∉ cs) : jsSplitDot cs = [cs] := by
  induction cs with
  | nil => rfl
  | cons c cs ih =>
    have hc : ¬ (c = '.') := fun e => h (by simp [e])
    have h2 : '.' ∉ cs := fun e => h (List.mem_cons_of_mem _ e)
    simp [jsSplitDot, ih h2, hc]

theorem jsSplitDot_length_two (cs : List Char) (h : '.' ∈ cs) :
    2 ≤ (jsSplitDot cs).length := by
  induction cs with
  | nil => simp at h
  | cons c cs ih =>
    cases hs : jsSplitDot cs with
    | nil => exact absurd hs (jsSplitDot_ne_nil cs)
    | cons seg rest =>
      by_cases hc : c = '.'
      · simp [jsSplitDot, hs, hc]
      · have h2 : '.' ∈ cs := by
          rcases List.mem_cons.mp h with h | h
          · exact absurd h.symm hc
          · exact h
        have hlen := ih h2
        rw [hs] at hlen
        simp at hlen
        simp [jsSplitDot, hs, hc]
        omega

theorem getLast?_jsSplitDot_dot (p s : List Char) :
    (jsSplitDot (p ++ '.' :: s)).getLast? = (jsSplitDot s).getLast? := by
  induction p with
  | nil =>
    cases hs : jsSplitDot s with
    | nil => exact absurd hs (jsSplitDot_ne_nil s)
    | cons seg rest =>
      simp [jsSplitDot, hs, List.getLast?_cons_cons]
  | cons c p ih =>
    have hmem : '.' ∈ p ++ '.' :: s := by simp
    cases hs : jsSplitDot (p ++ '.' :: s) with
    | nil => exact absurd hs (jsSplitDot_ne_nil _)
    | cons seg rest =>
      have hlen := jsSplitDot_length_two _ hmem
      rw [hs] at hlen
      have hrest : rest ≠ [] := by
        intro e
        rw [e] at hlen
        simp at hlen
      rw [hs] at ih
      by_cases hc : c = '.'
      · show (jsSplitDot (c :: (p ++ '.' :: s))).getLast? = _
        rw [show jsSplitDot (c :: (p ++ '.' :: s)) = [] :: seg :: rest by
          simp [jsSplitDot, hs, hc]]
        rw [List.getLast?_cons_cons]
        exact ih
      · show (jsSplitDot (c :: (p ++ '.' :: s))).getLast? = _
        rw [show jsSplitDot (c :: (p ++ '.' :: s)) = (c :: seg) :: rest by
          simp [jsSplitDot, hs, hc]]
        rw [getLast?_cons_of_ne _ _ hrest, ← getLast?_cons_of_ne seg _ hrest]
        exact ih

/-- The extension of a filename that has one: the lowercased text after
the last dot. -/
theorem getExtension_append (base ext : List Char) (h : '.' ∉ ext) :
    getExtension (base ++ '.' :: ext) = ext.map Char.toLower := by
  unfold getExtension
  rw [getLast?_jsSplitDot_dot, jsSplitDot_no_dot ext h]
  simp

/-- The "extension" of a dot-free filename: the whole lowercased name. -/
theorem getExtension_no_dot (name : List Char) (h : '.' ∉ name) :
    getExtension name = name.map Char.toLower := by
  unfold getExtension
  rw [jsSplitDot_no_dot name h]
  simp

theorem append_dot_inj : ∀ (p1 p2 s1 s2 : List Char), '.' ∉ p1 → '.' ∉ p2 →
    p1 ++ '.' :: s1 = p2 ++ '.' :: s2 → p1 = p2 ∧ s1 = s2 := by
  intro p1
  induction p1 with
  | nil =>
    intro p2 s1 s2 _ h2 h
    cases p2 with
    | nil => simpa using h
    | cons b p2 =>
      simp at h
      exact absurd (by simp [h.1.symm]) h2
  | cons a p1 ih =>
    intro p2 s1 s2 h1 h2 h
    cases p2 with
    | nil =>
      simp at h
      exact absurd (by simp [h.1]) h1
    | cons b p2 =>
      simp at h
      have h1' : '.' ∉ p1 := fun e => h1 (List.mem_cons_of_mem _ e)
      have h2' : '.' ∉ p2 := fun e => h2 (List.mem_cons_of_mem _ e)
      obtain ⟨hp, hs⟩ := ih p2 s1 s2 h1' h2' h.2
      exact ⟨by rw [h.1, hp], hs⟩

/-- No staged-name prefix `input{i}` contains a dot, for any index up to
the configured maximum input count. -/
theorem inputPrefix_no_dot : ∀ i : ℕ, i < 20 → '.' ∉ ("input".data ++ (Nat.repr i).data) := by
  decide

/-- Decimal rendering is injective on indices up to the configured
maximum input count. -/
theorem inputPrefix_inj :
    ∀ i : ℕ, i < 20 → ∀ j : ℕ, j < 20 → Nat.repr i = Nat.repr j → i = j := by
  decide

end SlideshowProcessor

open SlideshowProcessor in
/-- C7 (amended): staged names are collision-free across distinct input
indices of a run (runs are capped at the configured 20 inputs); the staged
extension is the lowercased last dot-separated segment of the filename —
for a filename with an extension that extension, for a dot-free filename
the whole lowercased filename rather than any fixed default. -/
theorem C7_staging_names :
    (∀ (i j : ℕ) (a b : String), i < CONFIG.MAX_FILES_SLIDESHOW →
        j < CONFIG.MAX_FILES_SLIDESHOW → i ≠ j →
        stagedName i a ≠ stagedName j b)
  ∧ (∀ (base ext : List Char), '.' ∉ ext →
        getExtension (base ++ '.' :: ext) = ext.map Char.toLower)
  ∧ (∀ name : List Char, '.' ∉ name →
        getExtension name = name.map Char.toLower) := by
  refine ⟨?_, getExtension_append, getExtension_no_dot⟩
  intro i j a b hi hj hij heq
  have hi20 : i < 20 := hi
  have hj20 : j < 20 := hj
  have hd : stagedChars i a.data = stagedChars j b.data := congrArg String.data heq
  unfold stagedChars at hd
  rw [List.append_assoc, List.append_assoc] at hd
  rw [← List.append_assoc ("input".data) _ _, ← List.append_assoc ("input".data) _ _] at hd
  obtain ⟨hpre, -⟩ := append_dot_inj _ _ _ _ (inputPrefix_no_dot i hi20)
    (inputPrefix_no_dot j hj20) hd
  have hrepr : (Nat.repr i).data = (Nat.repr j).data := List.append_cancel_left hpre
  exact hij (inputPrefix_inj i hi20 j hj20 (String.ext hrepr))

open SlideshowProcessor in
/-- C7 counterexample: the filename `photo` has no extension, yet its
staged name is `input0.photo`, not `input0.jpg` — the `?? 'jpg'` default
in `getExtension` is dead code, so no default extension is ever applied. -/
theorem C7_no_default_extension :
    ('.' ∉ "photo".data)
  ∧ getExtension "photo".data = "photo".data
  ∧ getExtension "photo".data ≠ "jpg".data
  ∧ stagedName 0 "photo" = "input0.photo"
  ∧ stagedName 0 "photo" ≠ "input0.jpg" := by
  decide

/-! ## Progress bounds -/

theorem jsRound_callback_bounds (p : ℚ) (h0 : 0 ≤ p) (h1 : p ≤ 1) :
    0 ≤ jsRound (p * 100) ∧ jsRound (p * 100) ≤ 100 := by
  unfold jsRound
  constructor
  · apply Int.le_floor.mpr
    push_cast
    linarith
  · have h2 : ⌊(p * 100 + 1/2 : ℚ)⌋ < (101 : ℤ) := Int.floor_lt.mpr (by push_cast; linarith)
    omega

theorem stagingProgress_bounds (i n : ℕ) (h : i < n) :
    20 ≤ stagingProgress i n ∧ stagingProgress i n ≤ 100 := by
  have hn0 : 0 < n := by omega
  have hnq : (0:ℚ) < n := by exact_mod_cast hn0
  unfold stagingProgress jsFloor
  constructor
  · have h0 : (0:ℤ) ≤ ⌊(i:ℚ)/n * 20⌋ := Int.le_floor.mpr (by positivity)
    omega
  · have h1 : (i:ℚ)/n < 1 := (div_lt_one hnq).mpr (by exact_mod_cast h)
    have h2 : ⌊(i:ℚ)/n * 20⌋ < (20 : ℤ) := Int.floor_lt.mpr (by push_cast; linarith)
    omega

theorem initializeRun_progress_bounds (env : RunEnv)
    (hcb : ∀ p ∈ env.loadCallbacks, 0 ≤ p ∧ p ≤ 1) :
    ∀ v ∈ progressUpdates (initializeRun env).1, 0 ≤ v ∧ v ≤ 100 := by
  unfold initializeRun
  split_ifs with h1 h2 h3 h4
  · simp [progressUpdates]
  · simp [progressUpdates]
  · intro v hv
    rw [progressUpdates_append, progressUpdates_append, progressUpdates_map_setProgress] at hv
    simp only [List.mem_append] at hv
    rcases hv with (hv | hv) | hv
    · simp [progressUpdates] at hv
      omega
    · obtain ⟨p, hp, rfl⟩ := List.mem_map.mp hv
      exact jsRound_callback_bounds p (hcb p hp).1 (hcb p hp).2
    · simp [progressUpdates] at hv
      omega
  · intro v hv
    rw [progressUpdates_append, progressUpdates_append, progressUpdates_map_setProgress] at hv
    simp only [List.mem_append] at hv
    rcases hv with (hv | hv) | hv
    · simp [progressUpdates] at hv
      omega
    · obtain ⟨p, hp, rfl⟩ := List.mem_map.mp hv
      exact jsRound_callback_bounds p (hcb p hp).1 (hcb p hp).2
    · simp [progressUpdates] at hv
  · simp [progressUpdates]

/-- C8 (amended): every progress value a run reports lies in `[0, 100]`
(given that the engine reports load/execution fractions in `[0, 1]`). The
monotonicity half of the original claim fails — see the regression
counterexample. -/
theorem C8_progress_range (D T fps : ℚ) (env : RunEnv)
    (hload : ∀ p ∈ env.loadCallbacks, 0 ≤ p ∧ p ≤ 1)
    (hexecCb : ∀ p ∈ env.execCallbacks, 0 ≤ p ∧ p ≤ 1) :
    ∀ v ∈ progressUpdates (processRun D T fps env).1, 0 ≤ v ∧ v ≤ 100 := by
  have hinit := initializeRun_progress_bounds env hload
  rcases hip : initializeRun env with ⟨initEvs, r⟩
  rw [hip] at hinit
  simp only [progressUpdates, List.mem_filterMap] at hinit
  unfold processRun
  rw [hip]
  by_cases hlen : env.files.length < 2
  · simp [hlen, progressUpdates]
  · by_cases ha : env.analyzeOk
    · cases r with
      | none =>
        intro v hv
        simp [hlen, ha, progressUpdates, List.mem_filterMap] at hv
        rcases hv with hv | hv | ⟨a, hmem, hmatch⟩
        · omega
        · omega
        · exact hinit v ⟨a, hmem, hmatch⟩
      | some ready =>
        cases ready with
        | false =>
          intro v hv
          simp [hlen, ha, progressUpdates, List.mem_filterMap] at hv
          rcases hv with hv | hv | ⟨a, hmem, hmatch⟩
          · omega
          · omega
          · exact hinit v ⟨a, hmem, hmatch⟩
        | true =>
          by_cases hexec : env.execOk
          · by_cases hread : env.readOk
            · intro v hv
              simp [hlen, ha, hexec, hread, progressUpdates, List.mem_filterMap] at hv
              rcases hv with hv | hv | ⟨a, hmem, hmatch⟩ | hv | ⟨i, hi, hv⟩ | hv | ⟨p, hp, hv⟩
                | hv | hv
              · omega
              · omega
              · exact hinit v ⟨a, hmem, hmatch⟩
              · omega
              · obtain ⟨a2, ha2, he⟩ := hi
                rcases he with rfl | rfl
                · simp at hv
                · simp at hv
                  rw [← hv]
                  have hb := stagingProgress_bounds a2 env.files.length ha2
                  omega
              · omega
              · rw [← hv]
                exact jsRound_callback_bounds p (hexecCb p hp).1 (hexecCb p hp).2
              · omega
              · omega
            · intro v hv
              simp [hlen, ha, hexec, hread, progressUpdates, List.mem_filterMap] at hv
              rcases hv with hv | hv | ⟨a, hmem, hmatch⟩ | hv | ⟨i, hi, hv⟩ | hv | ⟨p, hp, hv⟩
                | hv
              · omega
              · omega
              · exact hinit v ⟨a, hmem, hmatch⟩
              · omega
              · obtain ⟨a2, ha2, he⟩ := hi
                rcases he with rfl | rfl
                · simp at hv
                · simp at hv
                  rw [← hv]
                  have hb := stagingProgress_bounds a2 env.files.length ha2
                  omega
              · omega
              · rw [← hv]
                exact jsRound_callback_bounds p (hexecCb p hp).1 (hexecCb p hp).2
              · omega
          · intro v hv
            simp [hlen, ha, hexec, progressUpdates, List.mem_filterMap] at hv
            rcases hv with hv | hv | ⟨a, hmem, hmatch⟩ | hv | ⟨i, hi, hv⟩ | hv | ⟨p, hp, hv⟩
            · omega
            · omega
            · exact hinit v ⟨a, hmem, hmatch⟩
            · omega
            · obtain ⟨a2, ha2, he⟩ := hi
              rcases he with rfl | rfl
              · simp at hv
              · simp at hv
                rw [← hv]
                have hb := stagingProgress_bounds a2 env.files.length ha2
                omega
            · omega
            · rw [← hv]
              exact jsRound_callback_bounds p (hexecCb p hp).1 (hexecCb p hp).2
    · intro v hv
      simp [hlen, ha, progressUpdates] at hv
      omega

/-- A run that performs the first-ever engine load, with a successful
load and no engine progress callbacks. -/
def firstLoadEnv : RunEnv :=
  { files := ["a.jpg", "b.png"], engineLoaded := false, ffmpegLoading := false,
    inflightSuccess := true, sabSupported := true, loadOk := true, loadCallbacks := [],
    analyzeOk := true, maxWidth := 300, maxHeight := 200,
    execOk := true, execCallbacks := [], readOk := true }

/-- C8 counterexample: in a first-load run the reported progress sequence
is `5, 10, 0, 100, 20, 20, 30, 40, 90, 100` — engine acquisition resets
progress to 0 and then jumps to 100, so the sequence is not monotonically
non-decreasing. -/
theorem C8_progress_regression :
    progressUpdates (processRun 1.5 0.5 30 firstLoadEnv).1
      = [5, 10, 0, 100, 20, 20, 30, 40, 90, 100]
  ∧ ¬ List.Pairwise (· ≤ ·) (progressUpdates (processRun 1.5 0.5 30 firstLoadEnv).1) := by
  with_unfolding_all exact of_decide_eq_true rfl

/-- Witness for C8 at the concrete first-load environment. -/
theorem C8_progress_range_witness :
    (∀ p ∈ firstLoadEnv.loadCallbacks, 0 ≤ p ∧ p ≤ 1)
  ∧ (∀ p ∈ firstLoadEnv.execCallbacks, 0 ≤ p ∧ p ≤ 1)
  ∧ ∀ v ∈ progressUpdates (processRun 1.5 0.5 30 firstLoadEnv).1, 0 ≤ v ∧ v ≤ 100 :=
  ⟨fun p hp => absurd hp (List.not_mem_nil p),
    fun p hp => absurd hp (List.not_mem_nil p),
    C8_progress_range 1.5 0.5 30 firstLoadEnv
      (fun p hp => absurd hp (List.not_mem_nil p))
      (fun p hp => absurd hp (List.not_mem_nil p))⟩

/-! ## Concurrent engine acquisition and the progress bar -/

/-- C9 (amended): of two concurrent acquisition calls, the first starts
the one real load and the second awaits it — no duplicate initialization.
On success both callers observe `true`; on failure the first caller
observes `false` while the waiting caller's promise never resolves,
because the failure update does not change the `ffmpegLoaded` key. -/
theorem C9_single_flight_init :
    FFmpegManager.twoCallerInit true
      = (.startLoad, .awaitLoaded, true, some true)
  ∧ FFmpegManager.twoCallerInit false
      = (.startLoad, .awaitLoaded, false, none) := by
  decide

/-- C9 counterexample: when the in-flight load fails, the first caller
returns `false` but the awaiting caller observes nothing — the two
callers do not observe the same outcome. -/
theorem C9_failure_not_broadcast :
    (FFmpegManager.twoCallerInit false).2.2.1 = false
  ∧ (FFmpegManager.twoCallerInit false).2.2.2 = none
  ∧ (FFmpegManager.twoCallerInit false).2.2.2
      ≠ some (FFmpegManager.twoCallerInit false).2.2.1 := by
  decide

/-- C10: the progress bar clamps every update to `[0, 100]` and ignores
any update whose clamped value is strictly below the displayed one, so the
displayed percentage never decreases while the bar is visible, whatever
the underlying state reports; hiding the bar resets the display to 0. -/
theorem C10_progress_bar_monotone :
    (∀ current p, current ≤ ProgressBar.updateProgress current p)
  ∧ (∀ current p, 0 ≤ current → current ≤ 100 →
      0 ≤ ProgressBar.updateProgress current p ∧ ProgressBar.updateProgress current p ≤ 100)
  ∧ (∀ current p, ProgressBar.clamp p < current →
      ProgressBar.updateProgress current p = current)
  ∧ (∀ current p, current ≤ ProgressBar.clamp p →
      ProgressBar.updateProgress current p = ProgressBar.clamp p)
  ∧ (∀ p, 0 ≤ ProgressBar.clamp p ∧ ProgressBar.clamp p ≤ 100)
  ∧ (∀ c0 ps, List.Chain' (· ≤ ·) (ProgressBar.displayedValues c0 ps))
  ∧ ProgressBar.hideValue = 0 := by
  have hstep : ∀ current p : ℚ, current ≤ ProgressBar.updateProgress current p := by
    intro current p
    unfold ProgressBar.updateProgress
    by_cases h : ProgressBar.clamp p < current
    · simp [h]
    · simp [h]
      linarith [not_lt.mp h]
  have hclamp : ∀ p : ℚ, 0 ≤ ProgressBar.clamp p ∧ ProgressBar.clamp p ≤ 100 := by
    intro p
    unfold ProgressBar.clamp
    constructor
    · exact le_min (by norm_num) (le_max_left 0 p)
    · exact min_le_left 100 _
  refine ⟨hstep, ?_, ?_, ?_, hclamp, ?_, ?_⟩
  · intro current p h0 h100
    unfold ProgressBar.updateProgress
    by_cases h : ProgressBar.clamp p < current
    · simp [h]
      exact ⟨h0, h100⟩
    · simp [h]
      exact hclamp p
  · intro current p h
    unfold ProgressBar.updateProgress
    simp [h]
  · intro current p h
    unfold ProgressBar.updateProgress
    by_cases hlt : ProgressBar.clamp p < current
    · linarith
    · simp [hlt]
  · intro c0 ps
    unfold ProgressBar.displayedValues
    induction ps generalizing c0 with
    | nil => simp
    | cons p ps ih =>
      rw [List.scanl_cons]
      cases ps with
      | nil =>
        simp only [List.scanl_nil, List.singleton_append, List.chain'_cons,
          List.chain'_singleton, and_true]
        exact hstep c0 p
      | cons q qs =>
        have h2 := ih (ProgressBar.updateProgress c0 p)
        rw [List.scanl_cons] at h2 ⊢
        simp only [List.singleton_append] at h2 ⊢
        rw [List.chain'_cons]
        exact ⟨hstep c0 p, h2⟩
  · unfold ProgressBar.hideValue ProgressBar.updateProgress ProgressBar.clamp
    norm_num

end VisualTools
